import Mathlib

/-!
Verification of the MP3-player screen of this repository (the playlist store and
the single-voice playback session).  The definitions below are a shallow embedding
of the functions in the React Native source: `playMp3Audio`, `pauseMp3Audio`,
`stopMp3Audio`, `onMp3PlaybackStatusUpdate`, `pickMp3File`, `removeMp3Audio`, the
`loadMp3Playlist` mount effect and the `saveMp3Playlist` effect.  Platform
collaborators (expo-av, expo-file-system, AsyncStorage, the document picker) are
modelled by explicit state: a finite map for the file system, an optional stored
playlist for AsyncStorage, and explicit sound-handle instances for created
`Audio.Sound` objects.  Asynchronous resolution of `Audio.Sound.createAsync` is
modelled by splitting `playMp3Audio` at its suspension point into `playStart`
(the synchronous prefix: tear down the registered sound, issue the load) and
`completeLoad` (the continuation run when the platform resolves the load).
-/

/-- A playlist entry exactly as the app stores it: `{ name, uri }`. -/
structure Track where
  name : String
  uri : String
deriving DecidableEq, Repr

/-- A playback status object delivered by the audio engine to the status callback:
`{ positionMillis, durationMillis, didJustFinish }`. -/
structure Status where
  positionMillis : Nat
  durationMillis : Nat
  didJustFinish : Bool
deriving DecidableEq, Repr

/-- A created `Audio.Sound` object: the creation instance number (distinct per
`createAsync` call) and the uri it was created from (the `_uri` field the app
reads). -/
structure SoundHandle where
  inst : Nat
  uri : String
deriving DecidableEq, Repr

/-- The device file system, as the app observes it through `getInfoAsync`,
`copyAsync` and `deleteAsync`: a finite map from uri to file contents, with the
contents abstracted to a number so that overwriting is observable. -/
abbrev FS := List (String × Nat)

/-- `getInfoAsync`/read: the contents stored at a uri, if the file exists. -/
def fsGet (fs : FS) (u : String) : Option Nat :=
  match fs.find? (fun p => p.1 == u) with
  | some p => some p.2
  | none => none

/-- `copyAsync { from, to }` writes the source contents at the destination,
replacing any file already there (expo's `copyAsync` overwrites). -/
def fsSet (fs : FS) (u : String) (c : Nat) : FS :=
  (u, c) :: fs.filter (fun p => p.1 != u)

/-- `deleteAsync(uri, { idempotent: true })`: removes the file if present;
absence is not an error. -/
def fsDelete (fs : FS) (u : String) : FS :=
  fs.filter (fun p => p.1 != u)

/-- `getInfoAsync(uri).exists`. -/
def fsExists (fs : FS) (u : String) : Bool :=
  (fsGet fs u).isSome

/-- `FileSystem.documentDirectory + 'audio/'`, with the document directory root
abbreviated away. -/
def AUDIO_DIR : String := "audio/"

/-- Alert titles passed to `showMp3CustomAlert` by the playback error path. -/
def playErrorAlert : String := "Erro de Reprodução"

def pauseErrorAlert : String := "Erro ao Pausar"

def stopErrorAlert : String := "Erro ao Parar"

def addErrorAlert : String := "Erro ao Adicionar Música"

def addOkAlert : String := "Sucesso!"

def dupAlert : String := "Aviso"

def removeErrorAlert : String := "Erro ao Remover Música"

def removeOkAlert : String := "Sucesso!"

/-- The component state of the MP3 player: the React state hooks (`playlist`,
`currentMp3Sound`, `isMp3Playing`, `mp3PlaybackStatus`, `mp3Loading`), the
AsyncStorage slot under `PLAYLIST_STORAGE_KEY` (deserialised), the file system,
whether `AUDIO_DIR` has been created, the set of created-and-not-yet-unloaded
`Audio.Sound` instances, the `createAsync` calls issued but not yet resolved,
the alerts shown so far (by title), for every created instance the
`currentMp3Sound` value its status callback closed over (the `useCallback`
closure handed to `createAsync` captures the value from the render in which
`playMp3Audio` was invoked and is never refreshed for that sound), and the next
fresh instance number. -/
structure AppState where
  playlist : List Track
  currentMp3Sound : Option SoundHandle
  isMp3Playing : Bool
  mp3PlaybackStatus : Option Status
  mp3Loading : Bool
  storage : Option (List Track)
  fs : FS
  audioDirExists : Bool
  liveSounds : List SoundHandle
  pendingLoads : List (Nat × String)
  alerts : List String
  capturedBy : List (Nat × Option SoundHandle)
  nextInst : Nat
deriving DecidableEq, Repr

/-- The component state right after the first render: every hook at its
`useState` initial value, nothing created yet. -/
def initialAppState : AppState :=
  { playlist := []
  , currentMp3Sound := none
  , isMp3Playing := false
  , mp3PlaybackStatus := none
  , mp3Loading := false
  , storage := none
  , fs := []
  , audioDirExists := false
  , liveSounds := []
  , pendingLoads := []
  , alerts := []
  , capturedBy := []
  , nextInst := 0 }

/-- The `saveMp3Playlist` effect: whenever the playlist changes it rewrites the
whole snapshot to AsyncStorage, except while `mp3Loading` is set. -/
def persistPlaylist (s : AppState) : AppState :=
  if s.mp3Loading then s else { s with storage := some s.playlist }

/-- `playMp3Audio(itemUri)` up to its suspension at `createAsync`: if
`currentMp3Sound` is non-null the registered sound is unloaded (unconditionally,
even when its uri equals `itemUri`) and the reference cleared, then a
`createAsync({ uri: itemUri }, { shouldPlay: true }, ...)` call is issued with a
fresh instance number.  The status callback handed to `createAsync` is the
`onMp3PlaybackStatusUpdate` closure of the render that invoked `playMp3Audio`,
so it has captured that render's `currentMp3Sound` — the pre-teardown value `s`
holds on entry — and keeps it forever; `capturedBy` records it per instance. -/
def playStart (s : AppState) (itemUri : String) : AppState :=
  let s1 := match s.currentMp3Sound with
    | some h =>
      { s with currentMp3Sound := none
             , liveSounds := s.liveSounds.filter (fun g => g.inst != h.inst) }
    | none => s
  { s1 with pendingLoads := s1.pendingLoads ++ [(s1.nextInst, itemUri)]
          , capturedBy := s1.capturedBy ++ [(s1.nextInst, s.currentMp3Sound)]
          , nextInst := s1.nextInst + 1 }

/-- The continuation of `playMp3Audio` run when the platform resolves the
`createAsync` call with instance number `i`.  On success the new sound (already
playing, `shouldPlay: true`) is registered as `currentMp3Sound` and
`isMp3Playing` is set; on failure the catch block shows the playback error alert
and clears `isMp3Playing`.  Nothing here consults whether a newer play call has
superseded this load. -/
def completeLoad (s : AppState) (i : Nat) (ok : Bool) : AppState :=
  match s.pendingLoads.find? (fun p => p.1 == i) with
  | none => s
  | some p =>
    let s1 := { s with pendingLoads := s.pendingLoads.filter (fun q => q.1 != i) }
    if ok then
      { s1 with liveSounds := s1.liveSounds ++ [⟨i, p.2⟩]
              , currentMp3Sound := some ⟨i, p.2⟩
              , isMp3Playing := true }
    else
      { s1 with isMp3Playing := false
              , alerts := s1.alerts ++ [playErrorAlert] }

/-- One whole `playMp3Audio(itemUri)` call whose load resolves (with outcome
`ok`) before anything else happens. -/
def playMp3Audio (s : AppState) (itemUri : String) (ok : Bool) : AppState :=
  completeLoad (playStart s itemUri) s.nextInst ok

/-- The `currentMp3Sound` value that instance `i`'s status callback closed over
when it was created (null when the instance is unknown, as for a callback whose
closure saw no sound). -/
def capturedOf (s : AppState) (i : Nat) : Option SoundHandle :=
  match s.capturedBy.find? (fun p => p.1 == i) with
  | some p => p.2
  | none => none

/-- `onMp3PlaybackStatusUpdate(status)` as the callback of sound instance
`fromInst` runs it.  The setters `setMp3PlaybackStatus` and `setIsMp3Playing`
always act on the real component state, so every status is stored and every
`didJustFinish` clears `isMp3Playing`, from any instance.  The
`if (currentMp3Sound)` test, however, reads the closure-captured value fixed at
`createAsync` time — the sound registered at the render that invoked the play,
which is never the finishing sound itself: if the closure captured null (play
from idle) the cleanup is skipped entirely, leaving the finished sound
registered and loaded; if it captured the previously superseded sound, that old
sound is re-unloaded and `setCurrentMp3Sound(null)` clears the real reference,
while the finishing sound is never unloaded. -/
def onMp3PlaybackStatusUpdate (s : AppState) (fromInst : Nat) (st : Status) : AppState :=
  let s1 := { s with mp3PlaybackStatus := some st }
  if st.didJustFinish then
    let s2 := { s1 with isMp3Playing := false }
    match capturedOf s fromInst with
    | some h =>
      { s2 with currentMp3Sound := none
              , liveSounds := s2.liveSounds.filter (fun g => g.inst != h.inst) }
    | none => s2
  else s1

/-- `pauseMp3Audio()`: only acts when a sound is registered and `isMp3Playing`;
`pauseOk` is whether the platform `pauseAsync` call succeeded (on failure the
catch block shows the pause error alert). -/
def pauseMp3Audio (s : AppState) (pauseOk : Bool) : AppState :=
  match s.currentMp3Sound with
  | some _ =>
    if s.isMp3Playing then
      if pauseOk then { s with isMp3Playing := false }
      else { s with alerts := s.alerts ++ [pauseErrorAlert] }
    else s
  | none => s

/-- `stopMp3Audio()`: only acts when a sound is registered; on success
(`stopOk`) it stops and unloads the sound, clears the reference, clears
`isMp3Playing` and clears `mp3PlaybackStatus`.  If `stopAsync`/`unloadAsync`
throws, the catch block shows the stop error alert and none of the state
updates run. -/
def stopMp3Audio (s : AppState) (stopOk : Bool) : AppState :=
  match s.currentMp3Sound with
  | none => s
  | some h =>
    if stopOk then
      { s with currentMp3Sound := none
             , isMp3Playing := false
             , mp3PlaybackStatus := none
             , liveSounds := s.liveSounds.filter (fun g => g.inst != h.inst) }
    else { s with alerts := s.alerts ++ [stopErrorAlert] }

/-- The outcome of `DocumentPicker.getDocumentAsync`. -/
inductive PickResult where
  | canceled
  | picked (name : String) (uri : String)
deriving DecidableEq, Repr

/-- `pickMp3File()`: on a successful pick it ensures `AUDIO_DIR` exists, copies
the picked file to `AUDIO_DIR + fileName` (before any duplicate check, so an
existing destination file is replaced), and then appends
`{ name: fileName, uri: destinationUri }` to the playlist unless some entry
already has that uri, in which case it only shows the duplicate notice.  A
missing source or an injected copy fault throws into the catch block, which
shows the add error alert and touches nothing else.  The `saveMp3Playlist`
effect reruns only when the playlist reference changes (the duplicate branch
returns `prevPlaylist` itself, so React bails out and no write happens). -/
def pickMp3File (s : AppState) (result : PickResult) (copyFault : Bool) : AppState :=
  match result with
  | .canceled => s
  | .picked fileName fileUri =>
    let s1 := { s with audioDirExists := true }
    let destinationUri := AUDIO_DIR ++ fileName
    match fsGet s1.fs fileUri with
    | none => { s1 with alerts := s1.alerts ++ [addErrorAlert] }
    | some content =>
      if copyFault then { s1 with alerts := s1.alerts ++ [addErrorAlert] }
      else
        let s2 := { s1 with fs := fsSet s1.fs destinationUri content }
        if s2.playlist.any (fun item => item.uri == destinationUri) then
          { s2 with alerts := s2.alerts ++ [dupAlert] }
        else
          persistPlaylist
            { s2 with playlist := s2.playlist ++ [⟨fileName, destinationUri⟩]
                    , alerts := s2.alerts ++ [addOkAlert] }

/-- `removeMp3Audio(itemUri, fileName)`: if the registered sound was created
from `itemUri` it is stopped first (via `stopMp3Audio`, whose platform outcome
is `stopOk`); then the backing file is deleted with `idempotent: true`
(absence of the file is not an error; `deleteFault` injects a genuine failure,
handled by the catch block with the remove error alert) and the playlist entry
filtered out, after which the save effect rewrites the snapshot. -/
def removeMp3Audio (s : AppState) (itemUri : String) (stopOk : Bool) (deleteFault : Bool) :
    AppState :=
  let s1 := match s.currentMp3Sound with
    | some h => if h.uri == itemUri then stopMp3Audio s stopOk else s
    | none => s
  if deleteFault then { s1 with alerts := s1.alerts ++ [removeErrorAlert] }
  else
    let s2 := { s1 with fs := fsDelete s1.fs itemUri }
    persistPlaylist
      { s2 with playlist := s2.playlist.filter (fun item => item.uri != itemUri)
              , alerts := s2.alerts ++ [removeOkAlert] }

/-- The reconciliation step of `loadMp3Playlist`: keep exactly the stored
entries whose backing file still exists, in stored order. -/
def loadFilter (fs : FS) (stored : List Track) : List Track :=
  stored.filter (fun item => fsExists fs item.uri)

/-- Observable result of mounting the component: the durable playlist writes
issued while `loadMp3Playlist`'s read is still pending, and the in-memory and
durable playlists once the mount settles. -/
structure MountResult where
  writesDuringLoad : List (List Track)
  finalPlaylist : List Track
  finalStorage : Option (List Track)
deriving DecidableEq, Repr

/-- The component mount, following React's commit-and-effects semantics.  After
the first render both effects run in declaration order: the load effect calls
`setMp3Loading(true)` (only scheduling a re-render) and suspends at the
AsyncStorage read; the save effect then runs with the values captured at the
first render (`playlist = []`, `mp3Loading = false`), so its guard passes and it
issues a durable write of the empty playlist while the load is still in
progress.  AsyncStorage serves requests in issue order, so the load's read
(issued first) still returns the pre-mount value `storage0`; the load filters it
against the file system, stores the result with `setPlaylist`, and clears
`mp3Loading`, after which the save effect reruns and persists the reconciled
list. -/
def mountLoad (storage0 : Option (List Track)) (fs : FS) : MountResult :=
  let loaded := match storage0 with
    | some stored => loadFilter fs stored
    | none => []
  { writesDuringLoad := [[]]
  , finalPlaylist := loaded
  , finalStorage := some loaded }

/-- External events driving the playback session: user commands and platform
callbacks.  `loadDone` is the platform resolving the `createAsync` issued with
that instance number; `statusUpd` is a playback status pushed by the sound with
that instance number. -/
inductive Ev where
  | invokePlay (uri : String)
  | loadDone (inst : Nat) (ok : Bool)
  | statusUpd (inst : Nat) (st : Status)
  | invokePause (ok : Bool)
  | invokeStop (ok : Bool)
deriving DecidableEq, Repr

/-- One event applied to the component state. -/
def stepEv (s : AppState) : Ev → AppState
  | .invokePlay uri => playStart s uri
  | .loadDone i ok => completeLoad s i ok
  | .statusUpd i st => onMp3PlaybackStatusUpdate s i st
  | .invokePause ok => pauseMp3Audio s ok
  | .invokeStop ok => stopMp3Audio s ok

/-- A sequence of events applied in order (the app is single-threaded; the
platform chooses the resolution order of pending loads). -/
def runEvents (s : AppState) (es : List Ev) : AppState := es.foldl stepEv s

/-- A quiescent session: no load in flight, and the live sounds are exactly the
registered one (or none). -/
def goodState (s : AppState) : Prop :=
  s.pendingLoads = [] ∧
  s.liveSounds = (match s.currentMp3Sound with
    | some h => [h]
    | none => [])

/-- Playlist destination uris are pairwise distinct. -/
def urisNodup (s : AppState) : Prop :=
  (s.playlist.map (fun t => t.uri)).Nodup

/-- The playback-session projection of the state: the fields `stop`/`pause`/the
status callback govern, as opposed to the playlist store. -/
structure SessionView where
  currentMp3Sound : Option SoundHandle
  isMp3Playing : Bool
  mp3PlaybackStatus : Option Status
  liveSounds : List SoundHandle
deriving DecidableEq, Repr

/-- The session part of a component state. -/
def sessionOf (s : AppState) : SessionView :=
  ⟨s.currentMp3Sound, s.isMp3Playing, s.mp3PlaybackStatus, s.liveSounds⟩

/-! ## Claim C1 -/

/-- Claim C1, as stated, is false on the code: from the initial state, `play("a")`
then `play("b")` issued before a's load completes (so `currentMp3Sound` is still
null at both calls) leads — when the platform resolves b's load first and a's
second — to a final quiescent state whose registered sound references "a", with
two sound handles live.  The claim requires the final state to reference only
"b" with at most one live handle. -/
theorem playRace_counterexample :
    (runEvents initialAppState
        [Ev.invokePlay "a", Ev.invokePlay "b", Ev.loadDone 1 true,
         Ev.loadDone 0 true]).currentMp3Sound = some ⟨0, "a"⟩
    ∧ (runEvents initialAppState
        [Ev.invokePlay "a", Ev.invokePlay "b", Ev.loadDone 1 true,
         Ev.loadDone 0 true]).liveSounds.length = 2
    ∧ (runEvents initialAppState
        [Ev.invokePlay "a", Ev.invokePlay "b", Ev.loadDone 1 true,
         Ev.loadDone 0 true]).pendingLoads = [] := by
  decide

/-! ## Claim C2 -/

/-- Initial state for the duplicate-add counterexample: two distinct source
files on the device. -/
def twoSourcesState : AppState :=
  { initialAppState with fs := [("src1", 10), ("src2", 20)] }

/-- Claim C2, as stated, is false on the code: adding "a.mp3" from `src1` and
then adding another file also named "a.mp3" from `src2` rejects the second add
(duplicate notice, playlist unchanged) — but, because `copyAsync` runs before
the duplicate check, the destination file `audio/a.mp3` is silently overwritten:
its contents change from src1's to src2's. -/
theorem duplicateAdd_overwrites_counterexample :
    fsGet (pickMp3File twoSourcesState (PickResult.picked "a.mp3" "src1") false).fs
        (AUDIO_DIR ++ "a.mp3") = some 10
    ∧ (pickMp3File (pickMp3File twoSourcesState (PickResult.picked "a.mp3" "src1") false)
        (PickResult.picked "a.mp3" "src2") false).playlist
      = (pickMp3File twoSourcesState (PickResult.picked "a.mp3" "src1") false).playlist
    ∧ (pickMp3File (pickMp3File twoSourcesState (PickResult.picked "a.mp3" "src1") false)
        (PickResult.picked "a.mp3" "src2") false).alerts
      = (pickMp3File twoSourcesState (PickResult.picked "a.mp3" "src1") false).alerts
          ++ [dupAlert]
    ∧ fsGet (pickMp3File (pickMp3File twoSourcesState (PickResult.picked "a.mp3" "src1") false)
        (PickResult.picked "a.mp3" "src2") false).fs (AUDIO_DIR ++ "a.mp3") = some 20 := by
  decide

/-! ## Claim C4 -/

/-- Claim C4 (code bug): mounting the component with a non-empty durable
playlist issues a durable write — of the empty initial in-memory list — while
`loadMp3Playlist`'s read is still pending, because the save effect's first run
captured `mp3Loading = false` from the initial render.  The code's own comment
says this guard avoids saving the empty playlist during loading. -/
theorem mountWritesDuringLoad :
    (mountLoad (some [⟨"a.mp3", "audio/a.mp3"⟩]) [("audio/a.mp3", 5)]).writesDuringLoad
      = [[]]
    ∧ (mountLoad (some [⟨"a.mp3", "audio/a.mp3"⟩]) [("audio/a.mp3", 5)]).writesDuringLoad
      ≠ [] := by
  decide

/-! ## Claim C5 -/

/-- A quiescent state playing instance 0 of "a", partway through the track. -/
def playingState : AppState :=
  { initialAppState with
      currentMp3Sound := some ⟨0, "a"⟩
    , isMp3Playing := true
    , mp3PlaybackStatus := some ⟨100, 1000, false⟩
    , liveSounds := [⟨0, "a"⟩]
    , nextInst := 1 }

/-- The state reached by playing "a" from idle and letting its load resolve:
instance 0 is registered and playing, and its status callback's closure captured
the null `currentMp3Sound` of the invoking render. -/
def playedFromIdle : AppState :=
  runEvents initialAppState [Ev.invokePlay "a", Ev.loadDone 0 true]

/-- Claim C6, as stated, is false on the code: when the track played from idle
reaches end-of-track, the callback's closure captured a null `currentMp3Sound`,
so the cleanup branch is skipped — the finished sound stays registered and
loaded and the final status is retained — whereas explicit `stop()` from the
same state unloads the sound, clears the reference and clears the status; the
two resulting states are not identical. -/
theorem naturalFinish_ne_stop_counterexample :
    (onMp3PlaybackStatusUpdate playedFromIdle 0 ⟨1000, 1000, true⟩).currentMp3Sound
      = some ⟨0, "a"⟩
    ∧ (onMp3PlaybackStatusUpdate playedFromIdle 0 ⟨1000, 1000, true⟩).liveSounds
      = [⟨0, "a"⟩]
    ∧ (onMp3PlaybackStatusUpdate playedFromIdle 0 ⟨1000, 1000, true⟩).mp3PlaybackStatus
      = some ⟨1000, 1000, true⟩
    ∧ (stopMp3Audio playedFromIdle true).currentMp3Sound = none
    ∧ (stopMp3Audio playedFromIdle true).liveSounds = []
    ∧ (stopMp3Audio playedFromIdle true).mp3PlaybackStatus = none
    ∧ onMp3PlaybackStatusUpdate playedFromIdle 0 ⟨1000, 1000, true⟩
      ≠ stopMp3Audio playedFromIdle true := by
  decide

/-- Frame of the save effect: `persistPlaylist` only writes the storage slot. -/
theorem persistPlaylist_frame (s : AppState) :
    (persistPlaylist s).playlist = s.playlist
    ∧ (persistPlaylist s).fs = s.fs
    ∧ (persistPlaylist s).alerts = s.alerts
    ∧ (persistPlaylist s).currentMp3Sound = s.currentMp3Sound
    ∧ (persistPlaylist s).isMp3Playing = s.isMp3Playing
    ∧ (persistPlaylist s).mp3PlaybackStatus = s.mp3PlaybackStatus
    ∧ (persistPlaylist s).liveSounds = s.liveSounds
    ∧ (persistPlaylist s).mp3Loading = s.mp3Loading
    ∧ (persistPlaylist s).audioDirExists = s.audioDirExists := by
  unfold persistPlaylist
  split <;> simp

/-- Frame of a successful stop: only the session fields change. -/
theorem stopMp3Audio_ok_store (s : AppState) :
    (stopMp3Audio s true).playlist = s.playlist
    ∧ (stopMp3Audio s true).fs = s.fs
    ∧ (stopMp3Audio s true).storage = s.storage
    ∧ (stopMp3Audio s true).mp3Loading = s.mp3Loading
    ∧ (stopMp3Audio s true).alerts = s.alerts
    ∧ (stopMp3Audio s true).audioDirExists = s.audioDirExists := by
  unfold stopMp3Audio
  cases s.currentMp3Sound <;> simp

/-! ## Claim C6 (amended) -/

/-- Every status update, finishing or not, from any instance, stores the status. -/
theorem onUpd_status_eq (s : AppState) (i : Nat) (st : Status) :
    (onMp3PlaybackStatusUpdate s i st).mp3PlaybackStatus = some st := by
  unfold onMp3PlaybackStatusUpdate
  cases st.didJustFinish
  · rfl
  · cases capturedOf s i <;> rfl

/-- Unloading a sound other than instance `i` leaves instance `i`'s liveness
unchanged. -/
theorem filter_ne_preserves_eq (j i : Nat) (hne : j ≠ i) (l : List SoundHandle) :
    (l.filter (fun g => g.inst != j)).filter (fun g => g.inst == i)
      = l.filter (fun g => g.inst == i) := by
  induction l with
  | nil => rfl
  | cons a t ih =>
    by_cases ha : a.inst = i
    · have h1 : (a.inst == i) = true := by simp [ha]
      have h2 : (a.inst != j) = true := by
        simp only [bne_iff_ne]
        rw [ha]
        exact fun hij => hne hij.symm
      simp [List.filter_cons, h1, h2, ih]
    · have h1 : (a.inst == i) = false := by simp [ha]
      cases h2 : (a.inst != j) <;> simp [List.filter_cons, h1, h2, ih]

/-- Claim C6 (amended): natural completion never performs `stop()`'s cleanup.
On `didJustFinish` from sound instance `i` the handler stores the final status
(where `stop()` clears it to null) and clears `isMp3Playing`; the only cleanup
it can run is the one its creation-time closure captured: if the play was
invoked from idle (captured null) nothing is unloaded or cleared — the finished
sound stays registered and loaded — and if the play superseded a previous sound
the real reference is cleared and that old captured sound re-unloaded, but the
finishing sound itself is never unloaded (its liveness is untouched, under the
reachability fact that a closure's capture predates the instance's creation).
Whenever a sound is registered, the resulting state differs from `stop()`'s. -/
theorem naturalFinish_never_stops (s : AppState) (i : Nat) (st : Status)
    (hfin : st.didJustFinish = true)
    (hself : ∀ h, capturedOf s i = some h → h.inst ≠ i) :
    (capturedOf s i = none →
      onMp3PlaybackStatusUpdate s i st
        = { s with mp3PlaybackStatus := some st, isMp3Playing := false })
    ∧ (∀ h, capturedOf s i = some h →
      onMp3PlaybackStatusUpdate s i st
        = { s with mp3PlaybackStatus := some st, isMp3Playing := false
                 , currentMp3Sound := none
                 , liveSounds := s.liveSounds.filter (fun g => g.inst != h.inst) })
    ∧ (onMp3PlaybackStatusUpdate s i st).liveSounds.filter (fun g => g.inst == i)
      = s.liveSounds.filter (fun g => g.inst == i)
    ∧ (s.currentMp3Sound ≠ none →
        onMp3PlaybackStatusUpdate s i st ≠ stopMp3Audio s true) := by
  refine ⟨?_, ?_, ?_, ?_⟩
  · intro hcap
    simp [onMp3PlaybackStatusUpdate, hfin, hcap]
  · intro h hcap
    simp [onMp3PlaybackStatusUpdate, hfin, hcap]
  · cases hcap : capturedOf s i with
    | none => simp [onMp3PlaybackStatusUpdate, hfin, hcap]
    | some h =>
      have hcomm := filter_ne_preserves_eq h.inst i (hself h hcap) s.liveSounds
      simp [onMp3PlaybackStatusUpdate, hfin, hcap, hcomm]
  · intro hcur heq
    cases hc : s.currentMp3Sound with
    | none => exact hcur hc
    | some h0 =>
      have h1 := onUpd_status_eq s i st
      have h2 : (stopMp3Audio s true).mp3PlaybackStatus = none := by
        simp [stopMp3Audio, hc]
      rw [heq, h2] at h1
      exact Option.noConfusion h1

/-- Witness for the amended C6 theorem at the track played from idle: the
finish update only records the status and clears `isMp3Playing`, instance 0
stays live, and the result differs from an explicit stop. -/
theorem naturalFinish_never_stops_witness :
    onMp3PlaybackStatusUpdate playedFromIdle 0 ⟨1000, 1000, true⟩
      = { playedFromIdle with mp3PlaybackStatus := some ⟨1000, 1000, true⟩
                            , isMp3Playing := false }
    ∧ (onMp3PlaybackStatusUpdate playedFromIdle 0 ⟨1000, 1000, true⟩).liveSounds.filter
        (fun g => g.inst == 0)
      = playedFromIdle.liveSounds.filter (fun g => g.inst == 0)
    ∧ onMp3PlaybackStatusUpdate playedFromIdle 0 ⟨1000, 1000, true⟩
      ≠ stopMp3Audio playedFromIdle true := by
  obtain ⟨e1, _, e3, e4⟩ :=
    naturalFinish_never_stops playedFromIdle 0 ⟨1000, 1000, true⟩ rfl
      (fun h hc => Option.noConfusion
        (show (none : Option SoundHandle) = some h from hc))
  exact ⟨e1 (by decide), e3, e4 (by decide)⟩

/-! ## Claim C7 -/

/-- Claim C7: `pauseMp3Audio` in any state where the session is not playing (no
sound registered — in particular the idle state — or not `isMp3Playing`) leaves
the entire component state unchanged and shows no alert; likewise `stopMp3Audio`
with no sound registered is a silent no-op, so invalid transitions never surface
a fault. -/
theorem pauseMp3Audio_invalid_noop (s : AppState) (pauseOk stopOk : Bool) :
    ((s.isMp3Playing = false ∨ s.currentMp3Sound = none) → pauseMp3Audio s pauseOk = s)
    ∧ (s.currentMp3Sound = none → stopMp3Audio s stopOk = s) := by
  constructor
  · intro h
    cases hc : s.currentMp3Sound with
    | none => simp [pauseMp3Audio, hc]
    | some g =>
      rcases h with h | h
      · simp [pauseMp3Audio, hc, h]
      · rw [h] at hc
        exact Option.noConfusion hc
  · intro h
    simp [stopMp3Audio, h]

/-- Witness for C7: pausing and stopping from the idle initial state change
nothing. -/
theorem pauseMp3Audio_invalid_noop_witness :
    pauseMp3Audio initialAppState true = initialAppState
    ∧ stopMp3Audio initialAppState true = initialAppState :=
  ⟨(pauseMp3Audio_invalid_noop initialAppState true true).1 (Or.inr rfl),
   (pauseMp3Audio_invalid_noop initialAppState true true).2 rfl⟩

/-! ## Claim C5 (amended) -/

/-- From a quiescent session, one whole play call (load resolved before the next
command) ends quiescent, with the new sound registered exactly when the load
succeeded and never more than one handle live. -/
theorem playMp3Audio_quiescent (s : AppState) (hGood : goodState s) (uri : String)
    (ok : Bool) :
    goodState (playMp3Audio s uri ok)
    ∧ (playMp3Audio s uri ok).currentMp3Sound
      = (if ok then some ⟨s.nextInst, uri⟩ else none)
    ∧ (playMp3Audio s uri ok).liveSounds.length ≤ 1 := by
  obtain ⟨hp, hl⟩ := hGood
  cases hc : s.currentMp3Sound with
  | none =>
    rw [hc] at hl
    cases ok <;>
      simp [playMp3Audio, playStart, completeLoad, goodState, hc, hp, hl]
  | some h =>
    rw [hc] at hl
    cases ok <;>
      simp [playMp3Audio, playStart, completeLoad, goodState, hc, hp, hl]

/-- Claim C1 (amended): from a quiescent session, `playMp3Audio` unloads the
registered sound and clears the reference before the new load is issued —
unconditionally, even when the registered sound plays the same uri; and when
each play's load resolves before the next command is issued, `play(A)` then
`play(B)` ends with the registered sound referencing B or nothing (on B's load
failure), never A, with at most one handle live and the session quiescent.  The
original claim's guarantee for a `play(B)` issued before A's load completes does
not hold (see the race counterexample): supersession in the code is guarded only
by the `currentMp3Sound` reference, which an unresolved load has not set yet. -/
theorem playMp3Audio_supersede_sequential (s : AppState) (hGood : goodState s)
    (A B : String) (okA okB : Bool) :
    (∀ h, s.currentMp3Sound = some h →
        (playStart s A).currentMp3Sound = none
        ∧ (playStart s A).liveSounds = []
        ∧ (playStart s A).pendingLoads = [(s.nextInst, A)])
    ∧ (∀ h, (playMp3Audio (playMp3Audio s A okA) B okB).currentMp3Sound = some h →
        h.uri = B)
    ∧ (playMp3Audio (playMp3Audio s A okA) B okB).liveSounds.length ≤ 1
    ∧ goodState (playMp3Audio (playMp3Audio s A okA) B okB) := by
  obtain ⟨g1, c1, l1⟩ := playMp3Audio_quiescent s hGood A okA
  obtain ⟨g2, c2, l2⟩ := playMp3Audio_quiescent (playMp3Audio s A okA) g1 B okB
  refine ⟨?_, ?_, l2, g2⟩
  · intro h hc
    obtain ⟨hp, hl⟩ := hGood
    rw [hc] at hl
    simp [playStart, hc, hp, hl]
  · intro h hc
    rw [c2] at hc
    cases okB with
    | false => simp at hc
    | true =>
      rw [if_pos rfl] at hc
      rw [← Option.some.inj hc]

/-- Witness for the amended C1 theorem at the concrete playing state: the
registered sound of "a" is torn down before the load of "x" is issued, and the
sequential `play("x")` then `play("y")` ends quiescent on "y"'s sound alone. -/
theorem playMp3Audio_supersede_sequential_witness :
    ((playStart playingState "x").currentMp3Sound = none
      ∧ (playStart playingState "x").liveSounds = []
      ∧ (playStart playingState "x").pendingLoads = [(1, "x")])
    ∧ (playMp3Audio (playMp3Audio playingState "x" true) "y" true).currentMp3Sound
      = some ⟨2, "y"⟩
    ∧ (playMp3Audio (playMp3Audio playingState "x" true) "y" true).liveSounds.length ≤ 1
    ∧ goodState (playMp3Audio (playMp3Audio playingState "x" true) "y" true) := by
  obtain ⟨t1, _, t3, t4⟩ :=
    playMp3Audio_supersede_sequential playingState ⟨rfl, rfl⟩ "x" "y" true true
  exact ⟨t1 ⟨0, "a"⟩ rfl, by decide, t3, t4⟩

/-! ## Claim C3 -/

/-- Splitting a list by a Boolean predicate splits its length. -/
theorem length_filter_partition {α : Type} (p : α → Bool) (l : List α) :
    (l.filter p).length + (l.filter (fun a => !p a)).length = l.length := by
  induction l with
  | nil => rfl
  | cons a t ih =>
    cases h : p a <;> simp [List.filter_cons, h] <;> omega

/-- Claim C3: loading a stored playlist of which exactly one entry's backing
file is missing returns exactly the stored entries whose files exist, in stored
order (a sublist of the stored list) — one fewer than stored — and the durable
snapshot once the mount settles holds exactly that reconciled list. -/
theorem mountLoad_reconciles (stored : List Track) (fs : FS)
    (hone : (stored.filter (fun t => !fsExists fs t.uri)).length = 1) :
    (mountLoad (some stored) fs).finalPlaylist
      = stored.filter (fun t => fsExists fs t.uri)
    ∧ (mountLoad (some stored) fs).finalPlaylist.length = stored.length - 1
    ∧ List.Sublist (mountLoad (some stored) fs).finalPlaylist stored
    ∧ (mountLoad (some stored) fs).finalStorage
      = some ((mountLoad (some stored) fs).finalPlaylist) := by
  have hsum : (stored.filter (fun t => fsExists fs t.uri)).length
      + (stored.filter (fun t => !fsExists fs t.uri)).length = stored.length :=
    length_filter_partition (fun t => fsExists fs t.uri) stored
  refine ⟨rfl, ?_, ?_, rfl⟩
  · show (loadFilter fs stored).length = stored.length - 1
    unfold loadFilter
    omega
  · show List.Sublist (loadFilter fs stored) stored
    exact List.filter_sublist stored

/-- Witness for C3: three stored tracks of which "b.mp3" has no backing file. -/
theorem mountLoad_reconciles_witness :
    (mountLoad (some [⟨"a.mp3", "audio/a.mp3"⟩, ⟨"b.mp3", "audio/b.mp3"⟩,
        ⟨"c.mp3", "audio/c.mp3"⟩]) [("audio/a.mp3", 1), ("audio/c.mp3", 3)]).finalPlaylist
      = [⟨"a.mp3", "audio/a.mp3"⟩, ⟨"b.mp3", "audio/b.mp3"⟩,
          ⟨"c.mp3", "audio/c.mp3"⟩].filter
          (fun t => fsExists [("audio/a.mp3", 1), ("audio/c.mp3", 3)] t.uri)
    ∧ (mountLoad (some [⟨"a.mp3", "audio/a.mp3"⟩, ⟨"b.mp3", "audio/b.mp3"⟩,
        ⟨"c.mp3", "audio/c.mp3"⟩])
        [("audio/a.mp3", 1), ("audio/c.mp3", 3)]).finalPlaylist.length
      = [⟨"a.mp3", "audio/a.mp3"⟩, ⟨"b.mp3", "audio/b.mp3"⟩,
          (⟨"c.mp3", "audio/c.mp3"⟩ : Track)].length - 1
    ∧ List.Sublist
        (mountLoad (some [⟨"a.mp3", "audio/a.mp3"⟩, ⟨"b.mp3", "audio/b.mp3"⟩,
          ⟨"c.mp3", "audio/c.mp3"⟩])
          [("audio/a.mp3", 1), ("audio/c.mp3", 3)]).finalPlaylist
        [⟨"a.mp3", "audio/a.mp3"⟩, ⟨"b.mp3", "audio/b.mp3"⟩, ⟨"c.mp3", "audio/c.mp3"⟩]
    ∧ (mountLoad (some [⟨"a.mp3", "audio/a.mp3"⟩, ⟨"b.mp3", "audio/b.mp3"⟩,
        ⟨"c.mp3", "audio/c.mp3"⟩]) [("audio/a.mp3", 1), ("audio/c.mp3", 3)]).finalStorage
      = some (mountLoad (some [⟨"a.mp3", "audio/a.mp3"⟩, ⟨"b.mp3", "audio/b.mp3"⟩,
          ⟨"c.mp3", "audio/c.mp3"⟩])
          [("audio/a.mp3", 1), ("audio/c.mp3", 3)]).finalPlaylist :=
  mountLoad_reconciles
    [⟨"a.mp3", "audio/a.mp3"⟩, ⟨"b.mp3", "audio/b.mp3"⟩, ⟨"c.mp3", "audio/c.mp3"⟩]
    [("audio/a.mp3", 1), ("audio/c.mp3", 3)] (by decide)

/-! ## Claim C2 (amended) -/

/-- Reading back the uri a copy just wrote yields the copied contents. -/
theorem fsGet_fsSet_self (fs : FS) (u : String) (c : Nat) :
    fsGet (fsSet fs u c) u = some c := by
  simp [fsGet, fsSet, List.find?_cons]

/-- `pickMp3File` preserves pairwise-distinct destination uris: a successful
add appends a destination no existing entry has, and every other path leaves
the playlist unchanged. -/
theorem pickMp3File_nodup (s : AppState) (r : PickResult) (fault : Bool)
    (h : urisNodup s) : urisNodup (pickMp3File s r fault) := by
  cases r with
  | canceled => exact h
  | picked fileName fileUri =>
    simp only [pickMp3File]
    cases hg : fsGet s.fs fileUri with
    | none => exact h
    | some content =>
      cases fault with
      | true => exact h
      | false =>
        simp only [Bool.false_eq_true, if_false]
        split
        · exact h
        · rename_i hfalse
          unfold urisNodup
          rw [(persistPlaylist_frame _).1]
          simp only [List.map_append]
          refine List.Nodup.append h (List.nodup_singleton _) ?_
          intro x hx hx2
          simp only [List.map_cons, List.map_nil, List.mem_singleton] at hx2
          obtain ⟨a, ha, rfl⟩ := List.mem_map.mp hx
          exact hfalse (List.any_eq_true.mpr ⟨a, ha, by simp [hx2]⟩)

/-- Claim C2 (amended): a second add whose resolved destination equals an
existing Track's destination is rejected with the duplicate notice and leaves
the playlist and the durable snapshot unchanged — but, because the copy runs
before the duplicate check, the destination file is silently overwritten with
the new source's contents; and `pickMp3File` preserves the invariant that no
two Tracks share a destination uri. -/
theorem duplicateAdd_rejected (s : AppState) (fileName fileUri : String) (content : Nat)
    (hsrc : fsGet s.fs fileUri = some content)
    (hdup : s.playlist.any (fun item => item.uri == AUDIO_DIR ++ fileName) = true) :
    pickMp3File s (.picked fileName fileUri) false
      = { s with audioDirExists := true
               , fs := fsSet s.fs (AUDIO_DIR ++ fileName) content
               , alerts := s.alerts ++ [dupAlert] }
    ∧ fsGet (pickMp3File s (.picked fileName fileUri) false).fs (AUDIO_DIR ++ fileName)
      = some content
    ∧ (∀ r fault, urisNodup s → urisNodup (pickMp3File s r fault)) := by
  have hdup2 : ∃ x ∈ s.playlist, x.uri = AUDIO_DIR ++ fileName := by
    simpa using hdup
  have heq : pickMp3File s (.picked fileName fileUri) false
      = { s with audioDirExists := true
               , fs := fsSet s.fs (AUDIO_DIR ++ fileName) content
               , alerts := s.alerts ++ [dupAlert] } := by
    simp [pickMp3File, hsrc, hdup, hdup2]
  refine ⟨heq, ?_, fun r fault hn => pickMp3File_nodup s r fault hn⟩
  rw [heq]
  exact fsGet_fsSet_self s.fs (AUDIO_DIR ++ fileName) content

/-- A state whose playlist already holds a Track at destination
`audio/a.mp3`, with a different source file `src2` on the device. -/
def dupReadyState : AppState :=
  { initialAppState with
      fs := [("src2", 20)]
    , playlist := [⟨"a.mp3", "audio/a.mp3"⟩]
    , storage := some [⟨"a.mp3", "audio/a.mp3"⟩] }

/-- Witness for the amended C2 theorem at a concrete duplicate add. -/
theorem duplicateAdd_rejected_witness :
    pickMp3File dupReadyState (.picked "a.mp3" "src2") false
      = { dupReadyState with
            audioDirExists := true
          , fs := fsSet dupReadyState.fs (AUDIO_DIR ++ "a.mp3") 20
          , alerts := dupReadyState.alerts ++ [dupAlert] }
    ∧ fsGet (pickMp3File dupReadyState (.picked "a.mp3" "src2") false).fs
        (AUDIO_DIR ++ "a.mp3") = some 20
    ∧ (∀ r fault, urisNodup dupReadyState → urisNodup (pickMp3File dupReadyState r fault)) :=
  duplicateAdd_rejected dupReadyState "a.mp3" "src2" 20 (by decide) (by decide)

/-! ## Claim C9 -/

/-- Claim C9: an add whose picker is cancelled changes nothing at all, and an
add whose directory/copy step throws (missing source, or an injected copy
fault) leaves the playlist, the durable snapshot and the whole session exactly
unchanged — the only effects are the possibly-created audio directory and the
error alert. -/
theorem pickMp3File_atomic_on_failure (s : AppState) (fileName fileUri : String)
    (fault : Bool) :
    pickMp3File s .canceled fault = s
    ∧ (fsGet s.fs fileUri = none →
        pickMp3File s (.picked fileName fileUri) fault
          = { s with audioDirExists := true, alerts := s.alerts ++ [addErrorAlert] })
    ∧ pickMp3File s (.picked fileName fileUri) true
        = { s with audioDirExists := true, alerts := s.alerts ++ [addErrorAlert] } := by
  refine ⟨rfl, ?_, ?_⟩
  · intro hmiss
    simp [pickMp3File, hmiss]
  · simp only [pickMp3File]
    cases hg : fsGet s.fs fileUri <;> simp

/-- Witness for C9 at the initial state (no file at the picked source uri). -/
theorem pickMp3File_atomic_on_failure_witness :
    pickMp3File initialAppState .canceled false = initialAppState
    ∧ pickMp3File initialAppState (.picked "a.mp3" "src") false
      = { initialAppState with audioDirExists := true
                             , alerts := initialAppState.alerts ++ [addErrorAlert] }
    ∧ pickMp3File initialAppState (.picked "a.mp3" "src") true
      = { initialAppState with audioDirExists := true
                             , alerts := initialAppState.alerts ++ [addErrorAlert] } :=
  ⟨(pickMp3File_atomic_on_failure initialAppState "a.mp3" "src" false).1,
   (pickMp3File_atomic_on_failure initialAppState "a.mp3" "src" false).2.1 rfl,
   (pickMp3File_atomic_on_failure initialAppState "a.mp3" "src" false).2.2⟩

/-! ## Claim C10 -/

/-- `stopMp3Audio` never changes the playlist. -/
theorem stopMp3Audio_playlist (s : AppState) (ok : Bool) :
    (stopMp3Audio s ok).playlist = s.playlist := by
  unfold stopMp3Audio
  cases s.currentMp3Sound <;> cases ok <;> simp

/-- The save effect leaves the session projection unchanged. -/
theorem sessionOf_persist (s : AppState) :
    sessionOf (persistPlaylist s) = sessionOf s := by
  unfold persistPlaylist sessionOf
  split <;> rfl

/-- Filtering twice by the same predicate filters once. -/
theorem filter_idem {α : Type} (p : α → Bool) (l : List α) :
    (l.filter p).filter p = l.filter p := by
  induction l with
  | nil => rfl
  | cons a t ih => cases h : p a <;> simp [List.filter_cons, h, ih]

/-- Claim C10: `removeMp3Audio(uri)` leaves every Track whose uri differs from
`uri` unchanged and in the same relative order (the sub-sequence of such Tracks
is preserved on every path, including delete faults), and leaves the playback
session untouched whenever the registered sound was not created from `uri`. -/
theorem removeMp3Audio_frame (s : AppState) (itemUri : String)
    (stopOk deleteFault : Bool) :
    (removeMp3Audio s itemUri stopOk deleteFault).playlist.filter
        (fun t => t.uri != itemUri)
      = s.playlist.filter (fun t => t.uri != itemUri)
    ∧ ((∀ h, s.currentMp3Sound = some h → h.uri ≠ itemUri) →
        sessionOf (removeMp3Audio s itemUri stopOk deleteFault) = sessionOf s) := by
  constructor
  · unfold removeMp3Audio
    cases hc : s.currentMp3Sound with
    | none =>
      cases deleteFault with
      | true => rfl
      | false =>
        simp only [Bool.false_eq_true, if_false]
        rw [(persistPlaylist_frame _).1]
        exact filter_idem _ _
    | some h =>
      by_cases he2 : (h.uri == itemUri) = true
      · simp only [hc, he2, if_true]
        cases deleteFault with
        | true => simp [stopMp3Audio_playlist]
        | false =>
          simp only [Bool.false_eq_true, if_false]
          rw [(persistPlaylist_frame _).1]
          show ((stopMp3Audio s stopOk).playlist.filter _).filter _ = _
          rw [stopMp3Audio_playlist]
          exact filter_idem _ _
      · have he3 : (h.uri == itemUri) = false := by
          cases hb : (h.uri == itemUri)
          · rfl
          · exact absurd hb he2
        simp only [hc, he3, Bool.false_eq_true, if_false]
        cases deleteFault with
        | true => rfl
        | false =>
          simp only [Bool.false_eq_true, if_false]
          rw [(persistPlaylist_frame _).1]
          exact filter_idem _ _
  · intro hno
    unfold removeMp3Audio
    cases hc : s.currentMp3Sound with
    | none =>
      cases deleteFault with
      | true => rfl
      | false =>
        simp only [Bool.false_eq_true, if_false]
        rw [sessionOf_persist]
        rfl
    | some h =>
      have he3 : (h.uri == itemUri) = false := by
        cases hb : (h.uri == itemUri)
        · rfl
        · exact absurd (by simpa using hb) (hno h hc)
      simp only [hc, he3, Bool.false_eq_true, if_false]
      cases deleteFault with
      | true => simp [sessionOf, hc]
      | false =>
        simp only [Bool.false_eq_true, if_false]
        rw [sessionOf_persist]
        simp [sessionOf, hc]

/-- Witness for C10: removing a uri that is neither in the playlist nor playing
preserves the playlist sub-sequence and the session. -/
theorem removeMp3Audio_frame_witness :
    (removeMp3Audio dupReadyState "x" true false).playlist.filter
        (fun t => t.uri != "x")
      = dupReadyState.playlist.filter (fun t => t.uri != "x")
    ∧ sessionOf (removeMp3Audio dupReadyState "x" true false) = sessionOf dupReadyState :=
  ⟨(removeMp3Audio_frame dupReadyState "x" true false).1,
   (removeMp3Audio_frame dupReadyState "x" true false).2
     (fun h hc => Option.noConfusion (show (none : Option SoundHandle) = some h from hc))⟩

/-! ## Claim C8 -/

/-- Reading the uri a delete just removed yields nothing. -/
theorem fsGet_fsDelete_self (fs : FS) (u : String) : fsGet (fsDelete fs u) u = none := by
  have h : (fsDelete fs u).find? (fun p => p.1 == u) = none := by
    rw [List.find?_eq_none]
    intro x hx
    have hxu := (List.mem_filter.mp hx).2
    simp only [bne_iff_ne] at hxu
    simp [hxu]
  unfold fsGet
  rw [h]

/-- A successful add of a not-yet-present destination copies the file and
appends the Track, then persists. -/
theorem pickMp3File_append (s : AppState) (fileName fileUri : String) (content : Nat)
    (hsrc : fsGet s.fs fileUri = some content)
    (hnew : s.playlist.any (fun item => item.uri == AUDIO_DIR ++ fileName) = false) :
    pickMp3File s (.picked fileName fileUri) false
      = persistPlaylist
          { s with audioDirExists := true
                 , fs := fsSet s.fs (AUDIO_DIR ++ fileName) content
                 , playlist := s.playlist ++ [⟨fileName, AUDIO_DIR ++ fileName⟩]
                 , alerts := s.alerts ++ [addOkAlert] } := by
  have hnew2 : ¬∃ x ∈ s.playlist, x.uri = AUDIO_DIR ++ fileName := by
    intro hex
    obtain ⟨x, hx, hEq⟩ := hex
    have hany : s.playlist.any (fun item => item.uri == AUDIO_DIR ++ fileName) = true :=
      List.any_eq_true.mpr ⟨x, hx, by simp [hEq]⟩
    rw [hany] at hnew
    exact Bool.noConfusion hnew
  simp [pickMp3File, hsrc, hnew, hnew2]

/-- A remove performed after loading finished: playlist entry filtered out,
file deleted, snapshot rewritten, success alert shown. -/
theorem removeMp3Audio_store (s : AppState) (itemUri : String)
    (hload : s.mp3Loading = false) :
    (removeMp3Audio s itemUri true false).playlist
      = s.playlist.filter (fun item => item.uri != itemUri)
    ∧ (removeMp3Audio s itemUri true false).fs = fsDelete s.fs itemUri
    ∧ (removeMp3Audio s itemUri true false).storage
      = some (s.playlist.filter (fun item => item.uri != itemUri))
    ∧ (removeMp3Audio s itemUri true false).alerts = s.alerts ++ [removeOkAlert]
    ∧ (removeMp3Audio s itemUri true false).mp3Loading = false := by
  unfold removeMp3Audio
  cases hc : s.currentMp3Sound with
  | none =>
    simp [persistPlaylist, hload]
  | some h =>
    by_cases he : (h.uri == itemUri) = true
    · simp [he, persistPlaylist, hload, stopMp3Audio, hc]
    · have he3 : (h.uri == itemUri) = false := by
        cases hb : (h.uri == itemUri)
        · rfl
        · exact absurd hb he
      simp [he3, persistPlaylist, hload]

/-- Claim C8: from an empty playlist (loading finished), adding a picked file
and then removing its destination uri yields an empty playlist and an empty
durable snapshot, the backing file no longer exists, a subsequent load returns
an empty playlist, and removing the same uri again still succeeds (deletion is
idempotent: the file's absence is not an error — the success alert is shown, not
the failure alert). -/
theorem addRemoveRoundTrip (s s1 s2 : AppState) (fileName fileUri : String)
    (content : Nat)
    (hsrc : fsGet s.fs fileUri = some content)
    (hpl : s.playlist = []) (hload : s.mp3Loading = false)
    (hs1 : s1 = pickMp3File s (.picked fileName fileUri) false)
    (hs2 : s2 = removeMp3Audio s1 (AUDIO_DIR ++ fileName) true false) :
    s2.playlist = [] ∧ s2.storage = some []
    ∧ fsGet s2.fs (AUDIO_DIR ++ fileName) = none
    ∧ (mountLoad s2.storage s2.fs).finalPlaylist = []
    ∧ (removeMp3Audio s2 (AUDIO_DIR ++ fileName) true false).alerts
      = s2.alerts ++ [removeOkAlert] := by
  have hadd := pickMp3File_append s fileName fileUri content hsrc (by rw [hpl]; rfl)
  have h1pl : s1.playlist = [⟨fileName, AUDIO_DIR ++ fileName⟩] := by
    rw [hs1, hadd, (persistPlaylist_frame _).1]
    simp [hpl]
  have h1load : s1.mp3Loading = false := by
    rw [hs1, hadd, (persistPlaylist_frame _).2.2.2.2.2.2.2.1]
    exact hload
  have h1fs : s1.fs = fsSet s.fs (AUDIO_DIR ++ fileName) content := by
    rw [hs1, hadd, (persistPlaylist_frame _).2.1]
  obtain ⟨hrp, hrf, hrs, hra, hrl⟩ := removeMp3Audio_store s1 (AUDIO_DIR ++ fileName) h1load
  have h2pl : s2.playlist = [] := by
    rw [hs2, hrp, h1pl]
    simp
  refine ⟨h2pl, ?_, ?_, ?_, ?_⟩
  · rw [hs2, hrs, h1pl]
    simp
  · rw [hs2, hrf, h1fs]
    exact fsGet_fsDelete_self _ _
  · rw [hs2, hrs, h1pl]
    simp [mountLoad, loadFilter]
  · have h2load : s2.mp3Loading = false := by rw [hs2]; exact hrl
    exact (removeMp3Audio_store s2 (AUDIO_DIR ++ fileName) h2load).2.2.2.1

/-- A fresh state with one pickable source file on the device. -/
def srcOnlyState : AppState := { initialAppState with fs := [("src", 7)] }

/-- The state after adding "a.mp3" from the source. -/
def roundTripAdded : AppState := pickMp3File srcOnlyState (.picked "a.mp3" "src") false

/-- The state after then removing the added destination. -/
def roundTripRemoved : AppState :=
  removeMp3Audio roundTripAdded (AUDIO_DIR ++ "a.mp3") true false

/-- Witness for C8 at the concrete add/remove round trip. -/
theorem addRemoveRoundTrip_witness :
    roundTripRemoved.playlist = [] ∧ roundTripRemoved.storage = some []
    ∧ fsGet roundTripRemoved.fs (AUDIO_DIR ++ "a.mp3") = none
    ∧ (mountLoad roundTripRemoved.storage roundTripRemoved.fs).finalPlaylist = []
    ∧ (removeMp3Audio roundTripRemoved (AUDIO_DIR ++ "a.mp3") true false).alerts
      = roundTripRemoved.alerts ++ [removeOkAlert] :=
  addRemoveRoundTrip srcOnlyState roundTripAdded roundTripRemoved "a.mp3" "src" 7
    (by decide) rfl rfl rfl rfl
